import Mathlib

/-
Verification of the directory-change resolution engine (the cd builtin)
and the companion pwd builtin.

The development shallowly embeds src/builtins/cd.rs and src/builtins/pwd.rs.
External collaborators (the candidate resolver path_apply_cdpath, the path
normalizer normalize_path, the environment store, and the OS calls
wopen_dir / fchdir / wreadlink / wrealpath) are modelled as components of a
world record, so the embedded functions are pure functions of that world.
Side effects (fchdir, storing the cwd fd in the parser, set_var_and_fire)
are recorded as an explicit effect list in the result.
-/

/-- Error code ENOENT (no such file or directory), Linux value. -/
def ENOENT : Int := 2

/-- Error code ENOTDIR (not a directory), Linux value. -/
def ENOTDIR : Int := 20

/-- Error code ELOOP (too many levels of symbolic links), Linux value. -/
def ELOOP : Int := 40

/-- Error code EACCES (permission denied), Linux value. -/
def EACCES : Int := 13

/-- Error code EPERM (operation not permitted), Linux value. -/
def EPERM : Int := 1

/-- Exit status of a successful builtin invocation (Some(0) in the source). -/
def STATUS_CMD_OK : Int := 0

/-- Exit status of a failed builtin invocation (Some(1) in the source). -/
def STATUS_CMD_ERROR : Int := 1

/-- Outcome of the OS-level steps the loop body performs on one normalized
candidate path: the combined result of wopen_dir followed by fchdir
(none means both succeeded, some err is the errno of the failing step),
the result of wreadlink on the same path, and the value the global errno
holds right after that wreadlink call (the loop body reads errno there). -/
structure OsAttempt where
  openChdirResult : Option Int
  readlinkResult : Option String
  errnoAfterReadlink : Int
deriving DecidableEq

/-- The world one cd invocation runs in. cmd is argv[0]; arg is the path
operand if one was given (args.len() > opts.optind in the source); homeVar
is vars.get_unless_empty(HOME), so none covers both a missing and an empty
home variable; pwdSlash is vars.get_pwd_slash(); cdpath models
path_apply_cdpath applied to (input, pwd, vars); normalize models
normalize_path with allow_leading_double_slashes; osAttempt gives, per
normalized candidate path, the outcome of the OS steps; isInteractive and
currentLine model parser.is_interactive() and parser.current_line(). -/
structure CdWorld where
  cmd : String
  arg : Option String
  homeVar : Option String
  pwdSlash : String
  cdpath : String → String → List String
  normalize : String → String
  osAttempt : String → OsAttempt
  isInteractive : Bool
  currentLine : String

/-- One observable side effect of a cd invocation: changing the process
working directory through the opened handle (fchdir), stashing the handle
as the parser's cwd fd, or set_var_and_fire on a variable with the given
export and global flags. -/
inductive CdEffect
  | fchdirTo (dir : String)
  | setCwdFd (dir : String)
  | setVarAndFire (name : String) (exportFlag globalFlag : Bool) (value : List String)
deriving DecidableEq

/-- The error-stream messages the cd builtin can emit, one constructor per
wgettext_fmt format string, carrying exactly the arguments interpolated
into that format string, plus the current-line context appended in
non-interactive sessions. -/
inductive CdMessage
  | couldNotFindHome (cmd : String)
  | emptyDirectory (cmd dir : String)
  | doesNotExist (cmd dir : String)
  | isNotADirectory (cmd dir : String)
  | brokenSymbolicLink (cmd path target : String)
  | tooManyLevelsOfSymbolicLinks (cmd dir : String)
  | permissionDenied (cmd dir : String)
  | unknownErrorLocating (cmd dir : String) (code : Int)
  | currentLine (line : String)
deriving DecidableEq

/-- State threaded through the resolution loop: best_errno, broken_symlink
and broken_symlink_target are the mutable locals of the source; committed
records the normalized path of the successful candidate, if any; attempted
is instrumentation listing the normalized paths the loop body has run on,
in order; effects lists the side effects performed so far. -/
structure LoopState where
  bestErrno : Int
  brokenSymlink : String
  brokenSymlinkTarget : String
  committed : Option String
  attempted : List String
  effects : List CdEffect
deriving DecidableEq

/-- The loop state at entry: best_errno = 0, both broken-symlink slots
empty, nothing committed, nothing attempted, no effects. -/
def initLoopState : LoopState :=
  { bestErrno := 0
    brokenSymlink := ""
    brokenSymlinkTarget := ""
    committed := none
    attempted := []
    effects := [] }

/-- The resolution loop of cd (the for-dir-in-dirs loop of the source).
Per candidate: normalize, attempt open + fchdir; on success commit and
return; on ENOENT consult wreadlink, record the first broken symlink or,
failing that, record errno into best_errno only when best_errno is still 0,
and continue; on ENOTDIR overwrite best_errno and continue; on any other
error overwrite best_errno and break out of the loop. -/
def cdLoop (w : CdWorld) : List String → LoopState → LoopState
  | [], st => st
  | dir :: rest, st =>
    let normDir := w.normalize dir
    let sc := w.osAttempt normDir
    let st1 : LoopState := { st with attempted := st.attempted ++ [normDir] }
    match sc.openChdirResult with
    | none =>
      { st1 with
          committed := some normDir
          effects := st1.effects ++
            [CdEffect.fchdirTo normDir, CdEffect.setCwdFd normDir,
             CdEffect.setVarAndFire "PWD" true true [normDir]] }
    | some err =>
      if err = ENOENT then
        if st1.brokenSymlink = "" ∧ sc.readlinkResult.isSome then
          cdLoop w rest
            { st1 with
                brokenSymlink := normDir
                brokenSymlinkTarget := sc.readlinkResult.getD "" }
        else if st1.bestErrno = 0 then
          cdLoop w rest { st1 with bestErrno := sc.errnoAfterReadlink }
        else
          cdLoop w rest st1
      else if err = ENOTDIR then
        cdLoop w rest { st1 with bestErrno := err }
      else
        { st1 with bestErrno := err }

/-- The diagnostic the failure arbiter selects (the if-else chain after the
loop in the source), as a function of the final loop state. -/
def cdArbiterMessage (cmd dirIn : String) (st : LoopState) : CdMessage :=
  if st.bestErrno = ENOTDIR then
    CdMessage.isNotADirectory cmd dirIn
  else if st.brokenSymlink ≠ "" then
    CdMessage.brokenSymbolicLink cmd st.brokenSymlink st.brokenSymlinkTarget
  else if st.bestErrno = ELOOP then
    CdMessage.tooManyLevelsOfSymbolicLinks cmd dirIn
  else if st.bestErrno = ENOENT then
    CdMessage.doesNotExist cmd dirIn
  else if st.bestErrno = EACCES ∨ st.bestErrno = EPERM then
    CdMessage.permissionDenied cmd dirIn
  else
    CdMessage.unknownErrorLocating cmd dirIn st.bestErrno

/-- The effective target path of the invocation: the path operand when one
was given, otherwise the non-empty home variable; none when neither exists. -/
def cdDirIn (w : CdWorld) : Option String :=
  match w.arg with
  | some a => some a
  | none => w.homeVar

/-- The current-line context appended to error messages when the session is
non-interactive (streams.err.append(parser.current_line())). -/
def currentLineSuffix (w : CdWorld) : List CdMessage :=
  if w.isInteractive then [] else [CdMessage.currentLine w.currentLine]

/-- Result of one cd invocation: the exit status, the error-stream
messages in emission order, the committed normalized path if any, the
normalized candidates the loop attempted, and the side effects performed. -/
structure CdResult where
  status : Int
  errs : List CdMessage
  committed : Option String
  attempted : List String
  effects : List CdEffect
deriving DecidableEq

/-- The cd builtin after option parsing, with print_help false (the help
and option-error paths touch nothing modelled here). Mirrors the source:
pick the target path or fail with the no-home message; reject the empty
path; obtain the candidate list from path_apply_cdpath and fail if it is
empty; otherwise run the resolution loop and, on success, return status 0
having stashed the fd and set PWD, else report the arbiter's diagnostic. -/
def cd (w : CdWorld) : CdResult :=
  match cdDirIn w with
  | none =>
    { status := STATUS_CMD_ERROR
      errs := [CdMessage.couldNotFindHome w.cmd]
      committed := none
      attempted := []
      effects := [] }
  | some dirIn =>
    if dirIn = "" then
      { status := STATUS_CMD_ERROR
        errs := CdMessage.emptyDirectory w.cmd dirIn :: currentLineSuffix w
        committed := none
        attempted := []
        effects := [] }
    else
      let dirs := w.cdpath dirIn w.pwdSlash
      if dirs = [] then
        { status := STATUS_CMD_ERROR
          errs := CdMessage.doesNotExist w.cmd dirIn :: currentLineSuffix w
          committed := none
          attempted := []
          effects := [] }
      else
        let st := cdLoop w dirs initLoopState
        match st.committed with
        | some _ =>
          { status := STATUS_CMD_OK
            errs := []
            committed := st.committed
            attempted := st.attempted
            effects := st.effects }
        | none =>
          { status := STATUS_CMD_ERROR
            errs := cdArbiterMessage w.cmd dirIn st :: currentLineSuffix w
            committed := none
            attempted := st.attempted
            effects := st.effects }

/-- The world one pwd invocation runs in: argv[0], vars.get(PWD) as an
optional string, the wrealpath oracle, and the text errno formats to in
the realpath-failure message. -/
structure PwdWorld where
  cmd : String
  pwdVar : Option String
  wrealpath : String → Option String
  errnoText : String

/-- The error-stream message pwd can emit after option parsing. -/
inductive PwdMessage
  | realpathFailed (cmd errnoText : String)
deriving DecidableEq

/-- Result of one pwd invocation: exit status, output-stream lines, and
error-stream messages. -/
structure PwdResult where
  status : Int
  out : List String
  errs : List PwdMessage
deriving DecidableEq

/-- The stored working-directory string pwd starts from: the PWD variable
when present, the empty string otherwise. -/
def pwdStored (w : PwdWorld) : String :=
  match w.pwdVar with
  | some tmp => tmp
  | none => ""

/-- The pwd builtin after option parsing, with resolveSymlinks the value
the -L and -P flags left in the resolve_symlinks local. Mirrors the source:
read PWD; with -P replace it by wrealpath or fail; then fail if the string
is empty, else print it and succeed. -/
def pwd (resolveSymlinks : Bool) (w : PwdWorld) : PwdResult :=
  let pwd1 := pwdStored w
  if resolveSymlinks then
    match w.wrealpath pwd1 with
    | some realPwd =>
      if realPwd = "" then
        { status := STATUS_CMD_ERROR, out := [], errs := [] }
      else
        { status := STATUS_CMD_OK, out := [realPwd], errs := [] }
    | none =>
      { status := STATUS_CMD_ERROR, out := []
        errs := [PwdMessage.realpathFailed w.cmd w.errnoText] }
  else
    if pwd1 = "" then
      { status := STATUS_CMD_ERROR, out := [], errs := [] }
    else
      { status := STATUS_CMD_OK, out := [pwd1], errs := [] }

/-- Validity of the modelled OS outcomes on a given candidate list: a
failing open or fchdir never reports errno 0, the errno observed after
wreadlink is never 0 (the C library never stores 0 in errno and errno held
ENOENT when wreadlink ran), and normalize_path never returns the empty
string. -/
def CdOsValidOn (w : CdWorld) (dirs : List String) : Prop :=
  ∀ d ∈ dirs,
    (w.osAttempt (w.normalize d)).openChdirResult ≠ some 0 ∧
    (w.osAttempt (w.normalize d)).errnoAfterReadlink ≠ 0 ∧
    w.normalize d ≠ ""

instance (w : CdWorld) (dirs : List String) : Decidable (CdOsValidOn w dirs) := by
  unfold CdOsValidOn
  infer_instance

/-- A candidate failure the loop merely records before moving on: the
open-and-chdir step failed with ENOENT or ENOTDIR. -/
def SoftFailure (w : CdWorld) (d : String) : Prop :=
  ∃ e, (w.osAttempt (w.normalize d)).openChdirResult = some e ∧
    (e = ENOENT ∨ e = ENOTDIR)

instance (w : CdWorld) (d : String) : Decidable (SoftFailure w d) :=
  decidable_of_iff
    ((w.osAttempt (w.normalize d)).openChdirResult = some ENOENT ∨
      (w.osAttempt (w.normalize d)).openChdirResult = some ENOTDIR)
    (by
      constructor
      · rintro (h | h)
        · exact ⟨ENOENT, h, Or.inl rfl⟩
        · exact ⟨ENOTDIR, h, Or.inr rfl⟩
      · rintro ⟨e, he, rfl | rfl⟩
        · exact Or.inl he
        · exact Or.inr he)

/-- Modelled from the spec: the arbiter selection rule as written in the
specification, highest to lowest priority — not-a-directory; recorded
broken symlink; too many symlink indirections; not-found or no code
recorded reports does-not-exist; permission denied; otherwise the generic
unknown-error message. Stated separately from cdArbiterMessage (which is
translated from the code) so the two can be compared. -/
def arbiterSpecMessage (cmd dirIn : String) (st : LoopState) : CdMessage :=
  if st.bestErrno = ENOTDIR then
    CdMessage.isNotADirectory cmd dirIn
  else if st.brokenSymlink ≠ "" then
    CdMessage.brokenSymbolicLink cmd st.brokenSymlink st.brokenSymlinkTarget
  else if st.bestErrno = ELOOP then
    CdMessage.tooManyLevelsOfSymbolicLinks cmd dirIn
  else if st.bestErrno = ENOENT ∨ st.bestErrno = 0 then
    CdMessage.doesNotExist cmd dirIn
  else if st.bestErrno = EACCES ∨ st.bestErrno = EPERM then
    CdMessage.permissionDenied cmd dirIn
  else
    CdMessage.unknownErrorLocating cmd dirIn st.bestErrno

/-- The path-attribution property of one error message: every diagnostic
naming a directory names the raw input path dir_in (the operand or the
substituted home value), except the broken-symbolic-link diagnostic, whose
path is the normalized form of one of the candidates and whose target is
what wreadlink returned for that normalized path. -/
abbrev MsgPathProp (w : CdWorld) (dirIn : String) (m : CdMessage) : Prop :=
  (∀ c ps tg, m = CdMessage.brokenSymbolicLink c ps tg →
    ∃ x ∈ w.cdpath dirIn w.pwdSlash, ps = w.normalize x ∧
      (w.osAttempt (w.normalize x)).readlinkResult = some tg) ∧
  (∀ c s, m = CdMessage.emptyDirectory c s → s = dirIn) ∧
  (∀ c s, m = CdMessage.doesNotExist c s → s = dirIn) ∧
  (∀ c s, m = CdMessage.isNotADirectory c s → s = dirIn) ∧
  (∀ c s, m = CdMessage.tooManyLevelsOfSymbolicLinks c s → s = dirIn) ∧
  (∀ c s, m = CdMessage.permissionDenied c s → s = dirIn) ∧
  (∀ c s e, m = CdMessage.unknownErrorLocating c s e → s = dirIn)

/-- Modelled from the spec: the world an immediately repeated invocation of
the same command line runs in. A successful invocation publishes the
committed path into the working-directory variable, and the external
get_pwd_slash then yields that value with a trailing slash; every other
component (resolver, normalizer, filesystem outcomes, home variable) is
unchanged by an immediate repetition. A failed invocation changes
nothing. -/
def afterCd (w : CdWorld) : CdWorld :=
  match (cd w).committed with
  | some d => { w with pwdSlash := d ++ "/" }
  | none => w

/-- World for exercising the hard-error stop: the first candidate fails
with permission denied, the second would succeed. -/
def wHardStop : CdWorld :=
  { cmd := "cd"
    arg := some "x"
    homeVar := none
    pwdSlash := "/base/"
    cdpath := fun _ _ => ["/a", "/b"]
    normalize := fun s => s
    osAttempt := fun p =>
      if p = "/a" then
        { openChdirResult := some EACCES, readlinkResult := none
          errnoAfterReadlink := EACCES }
      else
        { openChdirResult := none, readlinkResult := none
          errnoAfterReadlink := ENOENT }
    isInteractive := true
    currentLine := "" }

/-- World for exercising best_errno overwriting: one not-a-directory
candidate followed by one permission-denied candidate. -/
def wOverwrite : CdWorld :=
  { cmd := "cd"
    arg := some "x"
    homeVar := none
    pwdSlash := "/base/"
    cdpath := fun _ _ => ["/nd", "/pd"]
    normalize := fun s => s
    osAttempt := fun p =>
      if p = "/nd" then
        { openChdirResult := some ENOTDIR, readlinkResult := none
          errnoAfterReadlink := ENOTDIR }
      else
        { openChdirResult := some EACCES, readlinkResult := none
          errnoAfterReadlink := EACCES }
    isInteractive := true
    currentLine := "" }

/-- World for exercising the arbiter priority: a not-found candidate
followed by a not-a-directory candidate, both soft failures. -/
def wPriority : CdWorld :=
  { cmd := "cd"
    arg := some "x"
    homeVar := none
    pwdSlash := "/base/"
    cdpath := fun _ _ => ["/t1", "/t2"]
    normalize := fun s => s
    osAttempt := fun p =>
      if p = "/t2" then
        { openChdirResult := some ENOTDIR, readlinkResult := none
          errnoAfterReadlink := ENOTDIR }
      else
        { openChdirResult := some ENOENT, readlinkResult := none
          errnoAfterReadlink := ENOENT }
    isInteractive := true
    currentLine := "" }

/-- World for exercising broken-symlink capture: three not-found
candidates, the second and third being readable symlinks. -/
def wBroken : CdWorld :=
  { cmd := "cd"
    arg := some "link"
    homeVar := none
    pwdSlash := "/base/"
    cdpath := fun _ _ => ["/m", "/link", "/m2"]
    normalize := fun s => s
    osAttempt := fun p =>
      if p = "/link" then
        { openChdirResult := some ENOENT, readlinkResult := some "/missing"
          errnoAfterReadlink := ENOENT }
      else if p = "/m2" then
        { openChdirResult := some ENOENT, readlinkResult := some "/other"
          errnoAfterReadlink := ENOENT }
      else
        { openChdirResult := some ENOENT, readlinkResult := none
          errnoAfterReadlink := ENOENT }
    isInteractive := true
    currentLine := "" }

/-- World for exercising the commit path: two soft failures followed by a
candidate that opens and changes directory successfully. -/
def wCommit : CdWorld :=
  { cmd := "cd"
    arg := some "ok"
    homeVar := none
    pwdSlash := "/base/"
    cdpath := fun _ _ => ["/f1", "/f2", "/ok"]
    normalize := fun s => s
    osAttempt := fun p =>
      if p = "/ok" then
        { openChdirResult := none, readlinkResult := none
          errnoAfterReadlink := ENOENT }
      else if p = "/f2" then
        { openChdirResult := some ENOTDIR, readlinkResult := none
          errnoAfterReadlink := ENOTDIR }
      else
        { openChdirResult := some ENOENT, readlinkResult := none
          errnoAfterReadlink := ENOENT }
    isInteractive := true
    currentLine := "" }

/-- World with no path operand and no home variable. -/
def wNoHome : CdWorld :=
  { cmd := "cd"
    arg := none
    homeVar := none
    pwdSlash := "/base/"
    cdpath := fun _ _ => []
    normalize := fun s => s
    osAttempt := fun _ =>
      { openChdirResult := some ENOENT, readlinkResult := none
        errnoAfterReadlink := ENOENT }
    isInteractive := true
    currentLine := "" }

/-- World with an explicit empty-string path operand. -/
def wEmptyArg : CdWorld :=
  { cmd := "cd"
    arg := some ""
    homeVar := some "/home/u"
    pwdSlash := "/base/"
    cdpath := fun _ _ => []
    normalize := fun s => s
    osAttempt := fun _ =>
      { openChdirResult := some ENOENT, readlinkResult := none
        errnoAfterReadlink := ENOENT }
    isInteractive := true
    currentLine := "" }

/-- World for exercising repetition: a relative path resolved against the
working directory, as the real resolver does when the search-path variable
is unset; the only existing directory is /base/foo. -/
def wRelative : CdWorld :=
  { cmd := "cd"
    arg := some "foo"
    homeVar := none
    pwdSlash := "/base/"
    cdpath := fun s p => [p ++ s]
    normalize := fun s => s
    osAttempt := fun p =>
      if p = "/base/foo" then
        { openChdirResult := none, readlinkResult := none
          errnoAfterReadlink := ENOENT }
      else
        { openChdirResult := some ENOENT, readlinkResult := none
          errnoAfterReadlink := ENOENT }
    isInteractive := true
    currentLine := "" }

/-- World for exercising repetition with a resolver whose output does not
depend on the working directory, as for an absolute path input. -/
def wAbsolute : CdWorld :=
  { cmd := "cd"
    arg := some "/abs/dir"
    homeVar := none
    pwdSlash := "/base/"
    cdpath := fun s _ => [s]
    normalize := fun s => s
    osAttempt := fun p =>
      if p = "/abs/dir" then
        { openChdirResult := none, readlinkResult := none
          errnoAfterReadlink := ENOENT }
      else
        { openChdirResult := some ENOENT, readlinkResult := none
          errnoAfterReadlink := ENOENT }
    isInteractive := true
    currentLine := "" }

/-- World for exercising the pwd builtin. -/
def wPwd : PwdWorld :=
  { cmd := "pwd"
    pwdVar := some "/home/u"
    wrealpath := fun s => if s = "/home/u" then some "/real/u" else none
    errnoText := "No such file or directory" }

theorem cdLoop_cons_success (w : CdWorld) (d : String) (rest : List String)
    (st : LoopState) (h : (w.osAttempt (w.normalize d)).openChdirResult = none) :
    cdLoop w (d :: rest) st =
      { st with
          attempted := st.attempted ++ [w.normalize d]
          committed := some (w.normalize d)
          effects := st.effects ++
            [CdEffect.fchdirTo (w.normalize d), CdEffect.setCwdFd (w.normalize d),
             CdEffect.setVarAndFire "PWD" true true [w.normalize d]] } := by
  simp only [cdLoop, h]

theorem cdLoop_cons_enoent_capture (w : CdWorld) (d : String) (rest : List String)
    (st : LoopState) (t : String)
    (h : (w.osAttempt (w.normalize d)).openChdirResult = some ENOENT)
    (hb : st.brokenSymlink = "")
    (hr : (w.osAttempt (w.normalize d)).readlinkResult = some t) :
    cdLoop w (d :: rest) st =
      cdLoop w rest
        { st with
            attempted := st.attempted ++ [w.normalize d]
            brokenSymlink := w.normalize d
            brokenSymlinkTarget := t } := by
  simp only [cdLoop, h, hr, if_pos, Option.isSome_some, Option.getD_some, and_true, hb,
    if_true]

theorem cdLoop_cons_enoent_record (w : CdWorld) (d : String) (rest : List String)
    (st : LoopState)
    (h : (w.osAttempt (w.normalize d)).openChdirResult = some ENOENT)
    (hc : ¬(st.brokenSymlink = "" ∧ (w.osAttempt (w.normalize d)).readlinkResult.isSome))
    (hz : st.bestErrno = 0) :
    cdLoop w (d :: rest) st =
      cdLoop w rest
        { st with
            attempted := st.attempted ++ [w.normalize d]
            bestErrno := (w.osAttempt (w.normalize d)).errnoAfterReadlink } := by
  simp only [cdLoop, h, if_true]
  rw [if_neg hc, if_pos hz]

theorem cdLoop_cons_enoent_skip (w : CdWorld) (d : String) (rest : List String)
    (st : LoopState)
    (h : (w.osAttempt (w.normalize d)).openChdirResult = some ENOENT)
    (hc : ¬(st.brokenSymlink = "" ∧ (w.osAttempt (w.normalize d)).readlinkResult.isSome))
    (hz : st.bestErrno ≠ 0) :
    cdLoop w (d :: rest) st =
      cdLoop w rest { st with attempted := st.attempted ++ [w.normalize d] } := by
  simp only [cdLoop, h, if_true]
  rw [if_neg hc, if_neg hz]

theorem cdLoop_cons_enotdir (w : CdWorld) (d : String) (rest : List String)
    (st : LoopState)
    (h : (w.osAttempt (w.normalize d)).openChdirResult = some ENOTDIR) :
    cdLoop w (d :: rest) st =
      cdLoop w rest
        { st with
            attempted := st.attempted ++ [w.normalize d]
            bestErrno := ENOTDIR } := by
  simp only [cdLoop, h, if_true]
  rw [if_neg (show ¬((ENOTDIR : Int) = ENOENT) by decide)]

theorem cdLoop_cons_hard (w : CdWorld) (d : String) (rest : List String)
    (st : LoopState) (err : Int)
    (h : (w.osAttempt (w.normalize d)).openChdirResult = some err)
    (h1 : err ≠ ENOENT) (h2 : err ≠ ENOTDIR) :
    cdLoop w (d :: rest) st =
      { st with
          attempted := st.attempted ++ [w.normalize d]
          bestErrno := err } := by
  simp only [cdLoop, h]
  rw [if_neg h1, if_neg h2]

theorem cdLoop_nil (w : CdWorld) (st : LoopState) : cdLoop w [] st = st := rfl

theorem cdLoop_preserves_signal (w : CdWorld) :
    ∀ (dirs : List String) (st : LoopState), CdOsValidOn w dirs →
    (st.bestErrno ≠ 0 ∨ st.brokenSymlink ≠ "") →
    ((cdLoop w dirs st).bestErrno ≠ 0 ∨ (cdLoop w dirs st).brokenSymlink ≠ "")
  | [], _, _, h => h
  | d :: rest, st, hv, h => by
    have hvr : CdOsValidOn w rest := fun x hx => hv x (List.mem_cons_of_mem _ hx)
    have hvd := hv d (List.mem_cons_self d rest)
    cases hoc : (w.osAttempt (w.normalize d)).openChdirResult with
    | none =>
      rw [cdLoop_cons_success w d rest st hoc]
      exact h
    | some err =>
      by_cases he : err = ENOENT
      · subst he
        by_cases hbc : st.brokenSymlink = "" ∧
            (w.osAttempt (w.normalize d)).readlinkResult.isSome
        · obtain ⟨t, ht⟩ := Option.isSome_iff_exists.mp hbc.2
          rw [cdLoop_cons_enoent_capture w d rest st t hoc hbc.1 ht]
          exact cdLoop_preserves_signal w rest _ hvr (Or.inr hvd.2.2)
        · by_cases hz : st.bestErrno = 0
          · rw [cdLoop_cons_enoent_record w d rest st hoc hbc hz]
            exact cdLoop_preserves_signal w rest _ hvr (Or.inl hvd.2.1)
          · rw [cdLoop_cons_enoent_skip w d rest st hoc hbc hz]
            exact cdLoop_preserves_signal w rest _ hvr h
      · by_cases hed : err = ENOTDIR
        · subst hed
          rw [cdLoop_cons_enotdir w d rest st hoc]
          exact cdLoop_preserves_signal w rest _ hvr
            (Or.inl (show (ENOTDIR : Int) ≠ 0 by decide))
        · rw [cdLoop_cons_hard w d rest st err hoc he hed]
          exact Or.inl fun h0 => hvd.1 (by rw [hoc]; exact congrArg some h0)

theorem cdLoop_failure_signal (w : CdWorld) :
    ∀ (dirs : List String) (st : LoopState), CdOsValidOn w dirs → dirs ≠ [] →
    (cdLoop w dirs st).committed = none →
    ((cdLoop w dirs st).bestErrno ≠ 0 ∨ (cdLoop w dirs st).brokenSymlink ≠ "")
  | [], _, _, hne, _ => absurd rfl hne
  | d :: rest, st, hv, _, hcm => by
    have hvr : CdOsValidOn w rest := fun x hx => hv x (List.mem_cons_of_mem _ hx)
    have hvd := hv d (List.mem_cons_self d rest)
    cases hoc : (w.osAttempt (w.normalize d)).openChdirResult with
    | none =>
      rw [cdLoop_cons_success w d rest st hoc] at hcm
      exact absurd hcm (by simp)
    | some err =>
      by_cases he : err = ENOENT
      · subst he
        by_cases hbc : st.brokenSymlink = "" ∧
            (w.osAttempt (w.normalize d)).readlinkResult.isSome
        · obtain ⟨t, ht⟩ := Option.isSome_iff_exists.mp hbc.2
          rw [cdLoop_cons_enoent_capture w d rest st t hoc hbc.1 ht]
          exact cdLoop_preserves_signal w rest _ hvr (Or.inr hvd.2.2)
        · by_cases hz : st.bestErrno = 0
          · rw [cdLoop_cons_enoent_record w d rest st hoc hbc hz]
            exact cdLoop_preserves_signal w rest _ hvr (Or.inl hvd.2.1)
          · rw [cdLoop_cons_enoent_skip w d rest st hoc hbc hz]
            exact cdLoop_preserves_signal w rest _ hvr (Or.inl hz)
      · by_cases hed : err = ENOTDIR
        · subst hed
          rw [cdLoop_cons_enotdir w d rest st hoc]
          exact cdLoop_preserves_signal w rest _ hvr
            (Or.inl (show (ENOTDIR : Int) ≠ 0 by decide))
        · rw [cdLoop_cons_hard w d rest st err hoc he hed]
          exact Or.inl fun h0 => hvd.1 (by rw [hoc]; exact congrArg some h0)

theorem cdLoop_keeps_enotdir (w : CdWorld) :
    ∀ (dirs : List String) (st : LoopState), (∀ d ∈ dirs, SoftFailure w d) →
    st.bestErrno = ENOTDIR → (cdLoop w dirs st).bestErrno = ENOTDIR
  | [], _, _, h => h
  | d :: rest, st, hs, h => by
    have hsr : ∀ x ∈ rest, SoftFailure w x := fun x hx => hs x (List.mem_cons_of_mem _ hx)
    obtain ⟨e, hoc, he⟩ := hs d (List.mem_cons_self d rest)
    rcases he with he | he
    · subst he
      by_cases hbc : st.brokenSymlink = "" ∧
          (w.osAttempt (w.normalize d)).readlinkResult.isSome
      · obtain ⟨t, ht⟩ := Option.isSome_iff_exists.mp hbc.2
        rw [cdLoop_cons_enoent_capture w d rest st t hoc hbc.1 ht]
        exact cdLoop_keeps_enotdir w rest _ hsr h
      · have hz : st.bestErrno ≠ 0 := by rw [h]; decide
        rw [cdLoop_cons_enoent_skip w d rest st hoc hbc hz]
        exact cdLoop_keeps_enotdir w rest _ hsr h
    · subst he
      rw [cdLoop_cons_enotdir w d rest st hoc]
      exact cdLoop_keeps_enotdir w rest _ hsr rfl

theorem cdLoop_sets_enotdir (w : CdWorld) :
    ∀ (dirs : List String) (st : LoopState), (∀ d ∈ dirs, SoftFailure w d) →
    (∃ d ∈ dirs, (w.osAttempt (w.normalize d)).openChdirResult = some ENOTDIR) →
    (cdLoop w dirs st).bestErrno = ENOTDIR
  | [], _, _, hex => absurd hex (by simp)
  | d :: rest, st, hs, hex => by
    have hsr : ∀ x ∈ rest, SoftFailure w x := fun x hx => hs x (List.mem_cons_of_mem _ hx)
    by_cases hd0 : (w.osAttempt (w.normalize d)).openChdirResult = some ENOTDIR
    · rw [cdLoop_cons_enotdir w d rest st hd0]
      exact cdLoop_keeps_enotdir w rest _ hsr rfl
    · obtain ⟨x, hx, hxo⟩ := hex
      rcases List.mem_cons.mp hx with hxd | hxr
      · exact absurd (hxd ▸ hxo) hd0
      · obtain ⟨e, hoc, he⟩ := hs d (List.mem_cons_self d rest)
        rcases he with he | he
        · subst he
          by_cases hbc : st.brokenSymlink = "" ∧
              (w.osAttempt (w.normalize d)).readlinkResult.isSome
          · obtain ⟨t, ht⟩ := Option.isSome_iff_exists.mp hbc.2
            rw [cdLoop_cons_enoent_capture w d rest st t hoc hbc.1 ht]
            exact cdLoop_sets_enotdir w rest _ hsr ⟨x, hxr, hxo⟩
          · by_cases hz : st.bestErrno = 0
            · rw [cdLoop_cons_enoent_record w d rest st hoc hbc hz]
              exact cdLoop_sets_enotdir w rest _ hsr ⟨x, hxr, hxo⟩
            · rw [cdLoop_cons_enoent_skip w d rest st hoc hbc hz]
              exact cdLoop_sets_enotdir w rest _ hsr ⟨x, hxr, hxo⟩
        · subst he
          exact absurd hoc hd0

theorem cdLoop_soft_committed (w : CdWorld) :
    ∀ (dirs : List String) (st : LoopState), (∀ d ∈ dirs, SoftFailure w d) →
    (cdLoop w dirs st).committed = st.committed
  | [], _, _ => rfl
  | d :: rest, st, hs => by
    have hsr : ∀ x ∈ rest, SoftFailure w x := fun x hx => hs x (List.mem_cons_of_mem _ hx)
    obtain ⟨e, hoc, he⟩ := hs d (List.mem_cons_self d rest)
    rcases he with he | he
    · subst he
      by_cases hbc : st.brokenSymlink = "" ∧
          (w.osAttempt (w.normalize d)).readlinkResult.isSome
      · obtain ⟨t, ht⟩ := Option.isSome_iff_exists.mp hbc.2
        rw [cdLoop_cons_enoent_capture w d rest st t hoc hbc.1 ht]
        exact cdLoop_soft_committed w rest _ hsr
      · by_cases hz : st.bestErrno = 0
        · rw [cdLoop_cons_enoent_record w d rest st hoc hbc hz]
          exact cdLoop_soft_committed w rest _ hsr
        · rw [cdLoop_cons_enoent_skip w d rest st hoc hbc hz]
          exact cdLoop_soft_committed w rest _ hsr
    · subst he
      rw [cdLoop_cons_enotdir w d rest st hoc]
      exact cdLoop_soft_committed w rest _ hsr

theorem cdLoop_append_soft (w : CdWorld) :
    ∀ (pre l : List String) (st : LoopState), (∀ p ∈ pre, SoftFailure w p) →
    ∃ st2, cdLoop w (pre ++ l) st = cdLoop w l st2 ∧
      st2.attempted = st.attempted ++ pre.map (fun x => w.normalize x) ∧
      st2.effects = st.effects ∧ st2.committed = st.committed
  | [], l, st, _ => ⟨st, rfl, by simp, rfl, rfl⟩
  | p :: pre, l, st, hs => by
    have hsr : ∀ x ∈ pre, SoftFailure w x := fun x hx => hs x (List.mem_cons_of_mem _ hx)
    obtain ⟨e, hoc, he⟩ := hs p (List.mem_cons_self p pre)
    rcases he with he | he
    · subst he
      by_cases hbc : st.brokenSymlink = "" ∧
          (w.osAttempt (w.normalize p)).readlinkResult.isSome
      · obtain ⟨t, ht⟩ := Option.isSome_iff_exists.mp hbc.2
        obtain ⟨st2, heq, ha, hf, hc⟩ := cdLoop_append_soft w pre l
          { st with attempted := st.attempted ++ [w.normalize p]
                    brokenSymlink := w.normalize p
                    brokenSymlinkTarget := t } hsr
        refine ⟨st2, ?x1, ?x2, hf, hc⟩
        · rw [List.cons_append, cdLoop_cons_enoent_capture w p (pre ++ l) st t hoc hbc.1 ht]
          exact heq
        · rw [ha]
          simp
      · by_cases hz : st.bestErrno = 0
        · obtain ⟨st2, heq, ha, hf, hc⟩ := cdLoop_append_soft w pre l
            { st with attempted := st.attempted ++ [w.normalize p]
                      bestErrno := (w.osAttempt (w.normalize p)).errnoAfterReadlink } hsr
          refine ⟨st2, ?y1, ?y2, hf, hc⟩
          · rw [List.cons_append, cdLoop_cons_enoent_record w p (pre ++ l) st hoc hbc hz]
            exact heq
          · rw [ha]
            simp
        · obtain ⟨st2, heq, ha, hf, hc⟩ := cdLoop_append_soft w pre l
            { st with attempted := st.attempted ++ [w.normalize p] } hsr
          refine ⟨st2, ?z1, ?z2, hf, hc⟩
          · rw [List.cons_append, cdLoop_cons_enoent_skip w p (pre ++ l) st hoc hbc hz]
            exact heq
          · rw [ha]
            simp
    · subst he
      obtain ⟨st2, heq, ha, hf, hc⟩ := cdLoop_append_soft w pre l
        { st with attempted := st.attempted ++ [w.normalize p]
                  bestErrno := ENOTDIR } hsr
      refine ⟨st2, ?w1, ?w2, hf, hc⟩
      · rw [List.cons_append, cdLoop_cons_enotdir w p (pre ++ l) st hoc]
        exact heq
      · rw [ha]
        simp

theorem cdLoop_no_commit_effects (w : CdWorld) :
    ∀ (dirs : List String) (st : LoopState), (cdLoop w dirs st).committed = none →
    (cdLoop w dirs st).effects = st.effects
  | [], _, _ => rfl
  | d :: rest, st, hcm => by
    cases hoc : (w.osAttempt (w.normalize d)).openChdirResult with
    | none =>
      rw [cdLoop_cons_success w d rest st hoc] at hcm
      exact absurd hcm (by simp)
    | some err =>
      by_cases he : err = ENOENT
      · subst he
        by_cases hbc : st.brokenSymlink = "" ∧
            (w.osAttempt (w.normalize d)).readlinkResult.isSome
        · obtain ⟨t, ht⟩ := Option.isSome_iff_exists.mp hbc.2
          rw [cdLoop_cons_enoent_capture w d rest st t hoc hbc.1 ht] at hcm ⊢
          exact cdLoop_no_commit_effects w rest _ hcm
        · by_cases hz : st.bestErrno = 0
          · rw [cdLoop_cons_enoent_record w d rest st hoc hbc hz] at hcm ⊢
            exact cdLoop_no_commit_effects w rest _ hcm
          · rw [cdLoop_cons_enoent_skip w d rest st hoc hbc hz] at hcm ⊢
            exact cdLoop_no_commit_effects w rest _ hcm
      · by_cases hed : err = ENOTDIR
        · subst hed
          rw [cdLoop_cons_enotdir w d rest st hoc] at hcm ⊢
          exact cdLoop_no_commit_effects w rest _ hcm
        · rw [cdLoop_cons_hard w d rest st err hoc he hed]

theorem cdLoop_broken_origin (w : CdWorld) :
    ∀ (dirs : List String) (st : LoopState),
    ((cdLoop w dirs st).brokenSymlink = st.brokenSymlink ∧
      (cdLoop w dirs st).brokenSymlinkTarget = st.brokenSymlinkTarget) ∨
    ∃ d ∈ dirs, (cdLoop w dirs st).brokenSymlink = w.normalize d ∧
      (w.osAttempt (w.normalize d)).readlinkResult =
        some (cdLoop w dirs st).brokenSymlinkTarget
  | [], _ => Or.inl ⟨rfl, rfl⟩
  | d :: rest, st => by
    cases hoc : (w.osAttempt (w.normalize d)).openChdirResult with
    | none =>
      rw [cdLoop_cons_success w d rest st hoc]
      exact Or.inl ⟨rfl, rfl⟩
    | some err =>
      by_cases he : err = ENOENT
      · subst he
        by_cases hbc : st.brokenSymlink = "" ∧
            (w.osAttempt (w.normalize d)).readlinkResult.isSome
        · obtain ⟨t, ht⟩ := Option.isSome_iff_exists.mp hbc.2
          rw [cdLoop_cons_enoent_capture w d rest st t hoc hbc.1 ht]
          rcases cdLoop_broken_origin w rest
            { st with attempted := st.attempted ++ [w.normalize d]
                      brokenSymlink := w.normalize d
                      brokenSymlinkTarget := t } with ⟨hb, htg⟩ | ⟨x, hx, hb, htg⟩
          · exact Or.inr ⟨d, List.mem_cons_self d rest, hb, by rw [htg]; exact ht⟩
          · exact Or.inr ⟨x, List.mem_cons_of_mem _ hx, hb, htg⟩
        · by_cases hz : st.bestErrno = 0
          · rw [cdLoop_cons_enoent_record w d rest st hoc hbc hz]
            rcases cdLoop_broken_origin w rest
              { st with attempted := st.attempted ++ [w.normalize d]
                        bestErrno := (w.osAttempt (w.normalize d)).errnoAfterReadlink }
              with ⟨hb, htg⟩ | ⟨x, hx, hb, htg⟩
            · exact Or.inl ⟨hb, htg⟩
            · exact Or.inr ⟨x, List.mem_cons_of_mem _ hx, hb, htg⟩
          · rw [cdLoop_cons_enoent_skip w d rest st hoc hbc hz]
            rcases cdLoop_broken_origin w rest
              { st with attempted := st.attempted ++ [w.normalize d] }
              with ⟨hb, htg⟩ | ⟨x, hx, hb, htg⟩
            · exact Or.inl ⟨hb, htg⟩
            · exact Or.inr ⟨x, List.mem_cons_of_mem _ hx, hb, htg⟩
      · by_cases hed : err = ENOTDIR
        · subst hed
          rw [cdLoop_cons_enotdir w d rest st hoc]
          rcases cdLoop_broken_origin w rest
            { st with attempted := st.attempted ++ [w.normalize d]
                      bestErrno := ENOTDIR }
            with ⟨hb, htg⟩ | ⟨x, hx, hb, htg⟩
          · exact Or.inl ⟨hb, htg⟩
          · exact Or.inr ⟨x, List.mem_cons_of_mem _ hx, hb, htg⟩
        · rw [cdLoop_cons_hard w d rest st err hoc he hed]
          exact Or.inl ⟨rfl, rfl⟩

theorem cdLoop_broken_stable (w : CdWorld) :
    ∀ (dirs : List String) (st : LoopState), st.brokenSymlink ≠ "" →
    (∀ d ∈ dirs, (w.osAttempt (w.normalize d)).openChdirResult = some ENOENT ∧
      (w.osAttempt (w.normalize d)).errnoAfterReadlink = ENOENT) →
    (cdLoop w dirs st).brokenSymlink = st.brokenSymlink ∧
    (cdLoop w dirs st).brokenSymlinkTarget = st.brokenSymlinkTarget ∧
    (cdLoop w dirs st).committed = st.committed ∧
    ((cdLoop w dirs st).bestErrno = st.bestErrno ∨ (cdLoop w dirs st).bestErrno = ENOENT)
  | [], _, _, _ => ⟨rfl, rfl, rfl, Or.inl rfl⟩
  | d :: rest, st, hb, h => by
    have hr : ∀ x ∈ rest, (w.osAttempt (w.normalize x)).openChdirResult = some ENOENT ∧
        (w.osAttempt (w.normalize x)).errnoAfterReadlink = ENOENT :=
      fun x hx => h x (List.mem_cons_of_mem _ hx)
    obtain ⟨hoc, hea⟩ := h d (List.mem_cons_self d rest)
    have hbc : ¬(st.brokenSymlink = "" ∧
        (w.osAttempt (w.normalize d)).readlinkResult.isSome) := fun hx => hb hx.1
    by_cases hz : st.bestErrno = 0
    · rw [cdLoop_cons_enoent_record w d rest st hoc hbc hz]
      obtain ⟨h1, h2, h3, h4⟩ := cdLoop_broken_stable w rest
        { st with attempted := st.attempted ++ [w.normalize d]
                  bestErrno := (w.osAttempt (w.normalize d)).errnoAfterReadlink } hb hr
      refine ⟨h1, h2, h3, Or.inr ?x⟩
      rcases h4 with h4 | h4
      · rw [h4]
        exact hea
      · exact h4
    · rw [cdLoop_cons_enoent_skip w d rest st hoc hbc hz]
      exact cdLoop_broken_stable w rest
        { st with attempted := st.attempted ++ [w.normalize d] } hb hr

theorem cdLoop_enoent_nolink_walk (w : CdWorld) :
    ∀ (pre l : List String) (st : LoopState),
    (∀ p ∈ pre, (w.osAttempt (w.normalize p)).openChdirResult = some ENOENT ∧
      (w.osAttempt (w.normalize p)).readlinkResult = none ∧
      (w.osAttempt (w.normalize p)).errnoAfterReadlink = ENOENT) →
    ∃ st2, cdLoop w (pre ++ l) st = cdLoop w l st2 ∧
      st2.brokenSymlink = st.brokenSymlink ∧
      st2.brokenSymlinkTarget = st.brokenSymlinkTarget ∧
      st2.committed = st.committed ∧
      (st2.bestErrno = st.bestErrno ∨ st2.bestErrno = ENOENT)
  | [], l, st, _ => ⟨st, rfl, rfl, rfl, rfl, Or.inl rfl⟩
  | p :: pre, l, st, h => by
    have hr : ∀ x ∈ pre, (w.osAttempt (w.normalize x)).openChdirResult = some ENOENT ∧
        (w.osAttempt (w.normalize x)).readlinkResult = none ∧
        (w.osAttempt (w.normalize x)).errnoAfterReadlink = ENOENT :=
      fun x hx => h x (List.mem_cons_of_mem _ hx)
    obtain ⟨hoc, hrl, hea⟩ := h p (List.mem_cons_self p pre)
    have hbc : ¬(st.brokenSymlink = "" ∧
        (w.osAttempt (w.normalize p)).readlinkResult.isSome) := by
      rw [hrl]
      simp
    by_cases hz : st.bestErrno = 0
    · obtain ⟨st2, heq, h1, h2, h3, h4⟩ := cdLoop_enoent_nolink_walk w pre l
        { st with attempted := st.attempted ++ [w.normalize p]
                  bestErrno := (w.osAttempt (w.normalize p)).errnoAfterReadlink } hr
      refine ⟨st2, ?x1, h1, h2, h3, Or.inr ?x2⟩
      · rw [List.cons_append, cdLoop_cons_enoent_record w p (pre ++ l) st hoc hbc hz]
        exact heq
      · rcases h4 with h4 | h4
        · rw [h4]
          exact hea
        · exact h4
    · obtain ⟨st2, heq, h1, h2, h3, h4⟩ := cdLoop_enoent_nolink_walk w pre l
        { st with attempted := st.attempted ++ [w.normalize p] } hr
      refine ⟨st2, ?y1, h1, h2, h3, h4⟩
      rw [List.cons_append, cdLoop_cons_enoent_skip w p (pre ++ l) st hoc hbc hz]
      exact heq

theorem cdLoop_update_pwdSlash (w : CdWorld) (p : String) :
    ∀ (dirs : List String) (st : LoopState),
    cdLoop { w with pwdSlash := p } dirs st = cdLoop w dirs st
  | [], _ => rfl
  | d :: rest, st => by
    cases hoc : (w.osAttempt (w.normalize d)).openChdirResult with
    | none =>
      rw [cdLoop_cons_success { w with pwdSlash := p } d rest st hoc,
        cdLoop_cons_success w d rest st hoc]
    | some err =>
      by_cases he : err = ENOENT
      · subst he
        by_cases hbc : st.brokenSymlink = "" ∧
            (w.osAttempt (w.normalize d)).readlinkResult.isSome
        · obtain ⟨t, ht⟩ := Option.isSome_iff_exists.mp hbc.2
          rw [cdLoop_cons_enoent_capture { w with pwdSlash := p } d rest st t hoc hbc.1 ht,
            cdLoop_cons_enoent_capture w d rest st t hoc hbc.1 ht]
          exact cdLoop_update_pwdSlash w p rest _
        · by_cases hz : st.bestErrno = 0
          · rw [cdLoop_cons_enoent_record { w with pwdSlash := p } d rest st hoc hbc hz,
              cdLoop_cons_enoent_record w d rest st hoc hbc hz]
            exact cdLoop_update_pwdSlash w p rest _
          · rw [cdLoop_cons_enoent_skip { w with pwdSlash := p } d rest st hoc hbc hz,
              cdLoop_cons_enoent_skip w d rest st hoc hbc hz]
            exact cdLoop_update_pwdSlash w p rest _
      · by_cases hed : err = ENOTDIR
        · subst hed
          rw [cdLoop_cons_enotdir { w with pwdSlash := p } d rest st hoc,
            cdLoop_cons_enotdir w d rest st hoc]
          exact cdLoop_update_pwdSlash w p rest _
        · rw [cdLoop_cons_hard { w with pwdSlash := p } d rest st err hoc he hed,
            cdLoop_cons_hard w d rest st err hoc he hed]

theorem cd_eq_noHome (w : CdWorld) (hdi : cdDirIn w = none) :
    cd w =
      { status := STATUS_CMD_ERROR
        errs := [CdMessage.couldNotFindHome w.cmd]
        committed := none
        attempted := []
        effects := [] } := by
  simp only [cd, hdi]

theorem cd_eq_empty (w : CdWorld) (dirIn : String) (hdi : cdDirIn w = some dirIn)
    (he : dirIn = "") :
    cd w =
      { status := STATUS_CMD_ERROR
        errs := CdMessage.emptyDirectory w.cmd dirIn :: currentLineSuffix w
        committed := none
        attempted := []
        effects := [] } := by
  simp only [cd, hdi, if_pos he]

theorem cd_eq_nil (w : CdWorld) (dirIn : String) (hdi : cdDirIn w = some dirIn)
    (hne : ¬dirIn = "") (hnil : w.cdpath dirIn w.pwdSlash = []) :
    cd w =
      { status := STATUS_CMD_ERROR
        errs := CdMessage.doesNotExist w.cmd dirIn :: currentLineSuffix w
        committed := none
        attempted := []
        effects := [] } := by
  simp only [cd, hdi, if_neg hne, if_pos hnil]

theorem cd_eq_commit (w : CdWorld) (dirIn x : String) (hdi : cdDirIn w = some dirIn)
    (hne : ¬dirIn = "") (hnil : ¬w.cdpath dirIn w.pwdSlash = [])
    (hcm : (cdLoop w (w.cdpath dirIn w.pwdSlash) initLoopState).committed = some x) :
    cd w =
      { status := STATUS_CMD_OK
        errs := []
        committed := (cdLoop w (w.cdpath dirIn w.pwdSlash) initLoopState).committed
        attempted := (cdLoop w (w.cdpath dirIn w.pwdSlash) initLoopState).attempted
        effects := (cdLoop w (w.cdpath dirIn w.pwdSlash) initLoopState).effects } := by
  simp only [cd, hdi, if_neg hne, if_neg hnil, hcm]

theorem cd_eq_arbiter (w : CdWorld) (dirIn : String) (hdi : cdDirIn w = some dirIn)
    (hne : ¬dirIn = "") (hnil : ¬w.cdpath dirIn w.pwdSlash = [])
    (hcm : (cdLoop w (w.cdpath dirIn w.pwdSlash) initLoopState).committed = none) :
    cd w =
      { status := STATUS_CMD_ERROR
        errs := cdArbiterMessage w.cmd dirIn
            (cdLoop w (w.cdpath dirIn w.pwdSlash) initLoopState) :: currentLineSuffix w
        committed := none
        attempted := (cdLoop w (w.cdpath dirIn w.pwdSlash) initLoopState).attempted
        effects := (cdLoop w (w.cdpath dirIn w.pwdSlash) initLoopState).effects } := by
  simp only [cd, hdi, if_neg hne, if_neg hnil, hcm]

theorem cd_committed_ok (w : CdWorld) (d : String) (h : (cd w).committed = some d) :
    (cd w).status = STATUS_CMD_OK ∧ (cd w).errs = [] := by
  cases hdi : cdDirIn w with
  | none =>
    rw [cd_eq_noHome w hdi] at h
    exact Option.noConfusion h
  | some dirIn =>
    by_cases hemp : dirIn = ""
    · rw [cd_eq_empty w dirIn hdi hemp] at h
      exact Option.noConfusion h
    · by_cases hnil : w.cdpath dirIn w.pwdSlash = []
      · rw [cd_eq_nil w dirIn hdi hemp hnil] at h
        exact Option.noConfusion h
      · cases hcm : (cdLoop w (w.cdpath dirIn w.pwdSlash) initLoopState).committed with
        | none =>
          rw [cd_eq_arbiter w dirIn hdi hemp hnil hcm] at h
          exact Option.noConfusion h
        | some x =>
          rw [cd_eq_commit w dirIn x hdi hemp hnil hcm]
          exact ⟨rfl, rfl⟩

theorem cdLoop_enoent_keeps_best (w : CdWorld) :
    ∀ (dirs : List String) (st : LoopState),
    (∀ d ∈ dirs, (w.osAttempt (w.normalize d)).openChdirResult = some ENOENT) →
    st.bestErrno ≠ 0 → (cdLoop w dirs st).bestErrno = st.bestErrno
  | [], _, _, _ => rfl
  | d :: rest, st, h, hz => by
    have hr : ∀ x ∈ rest, (w.osAttempt (w.normalize x)).openChdirResult = some ENOENT :=
      fun x hx => h x (List.mem_cons_of_mem _ hx)
    have hoc := h d (List.mem_cons_self d rest)
    by_cases hbc : st.brokenSymlink = "" ∧
        (w.osAttempt (w.normalize d)).readlinkResult.isSome
    · obtain ⟨t, ht⟩ := Option.isSome_iff_exists.mp hbc.2
      rw [cdLoop_cons_enoent_capture w d rest st t hoc hbc.1 ht]
      exact cdLoop_enoent_keeps_best w rest _ hr hz
    · rw [cdLoop_cons_enoent_skip w d rest st hoc hbc hz]
      exact cdLoop_enoent_keeps_best w rest _ hr hz

theorem arbiter_eq_spec (cmd dirIn : String) (st : LoopState)
    (h : st.bestErrno ≠ 0 ∨ st.brokenSymlink ≠ "") :
    cdArbiterMessage cmd dirIn st = arbiterSpecMessage cmd dirIn st := by
  unfold cdArbiterMessage arbiterSpecMessage
  by_cases h1 : st.bestErrno = ENOTDIR
  · rw [if_pos h1, if_pos h1]
  · rw [if_neg h1, if_neg h1]
    by_cases h2 : st.brokenSymlink ≠ ""
    · rw [if_pos h2, if_pos h2]
    · rw [if_neg h2, if_neg h2]
      have hz : st.bestErrno ≠ 0 := by
        rcases h with h | h
        · exact h
        · exact absurd h h2
      by_cases h3 : st.bestErrno = ELOOP
      · rw [if_pos h3, if_pos h3]
      · rw [if_neg h3, if_neg h3]
        by_cases h4 : st.bestErrno = ENOENT
        · rw [if_pos h4, if_pos (Or.inl h4)]
        · rw [if_neg h4, if_neg (show ¬(st.bestErrno = ENOENT ∨ st.bestErrno = 0) by
            rintro (hx | hx)
            exacts [h4 hx, hz hx])]

/-- C1 counterexample: in wHardStop the first candidate fails with
permission denied and the second would open and change directory
successfully, yet the invocation commits nothing, fails, and attempts only
the first candidate — the loop stopped before exhausting the list without
any candidate succeeding, contradicting the claim that only a success
stops it early. -/
theorem cd_loop_early_stop_counterexample :
    (cd wHardStop).committed = none ∧
    (cd wHardStop).status = STATUS_CMD_ERROR ∧
    (cd wHardStop).attempted = ["/a"] ∧
    "/b" ∈ wHardStop.cdpath "x" wHardStop.pwdSlash ∧
    (wHardStop.osAttempt (wHardStop.normalize "/b")).openChdirResult = none := by
  decide

/-- C1 (amended): the resolution loop records a not-found or
not-a-directory failure and continues to the next candidate — a list of
only such failures is attempted in full with nothing committed (second
conjunct) — while a candidate failing with any other code has that code
recorded into best_errno and stops the loop at once, attempting no later
candidate (first conjunct); besides these hard failures, only a successful
open-and-change-directory stops the loop early. -/
theorem cd_loop_stop_policy :
    (∀ (w : CdWorld) (pre : List String) (d : String) (post : List String)
      (st : LoopState) (err : Int),
      (∀ p ∈ pre, SoftFailure w p) →
      (w.osAttempt (w.normalize d)).openChdirResult = some err →
      err ≠ ENOENT → err ≠ ENOTDIR → st.committed = none →
      (cdLoop w (pre ++ d :: post) st).committed = none ∧
      (cdLoop w (pre ++ d :: post) st).bestErrno = err ∧
      (cdLoop w (pre ++ d :: post) st).attempted =
        st.attempted ++ (pre ++ [d]).map (fun x => w.normalize x)) ∧
    (∀ (w : CdWorld) (dirs : List String) (st : LoopState),
      (∀ p ∈ dirs, SoftFailure w p) →
      (cdLoop w dirs st).committed = st.committed ∧
      (cdLoop w dirs st).attempted =
        st.attempted ++ dirs.map (fun x => w.normalize x)) := by
  constructor
  · intro w pre d post st err hpre hoc h1 h2 hcm
    obtain ⟨st2, heq, ha, _, hc⟩ := cdLoop_append_soft w pre (d :: post) st hpre
    rw [heq, cdLoop_cons_hard w d post st2 err hoc h1 h2]
    refine ⟨hc.trans hcm, rfl, ?x⟩
    show st2.attempted ++ [w.normalize d] = _
    rw [ha]
    simp
  · intro w dirs st hsoft
    obtain ⟨st2, heq, ha, _, hc⟩ := cdLoop_append_soft w dirs [] st hsoft
    rw [List.append_nil] at heq
    rw [heq, cdLoop_nil]
    exact ⟨hc, ha⟩

theorem cd_loop_stop_policy_witness :
    (cdLoop wHardStop ([] ++ "/a" :: ["/b"]) initLoopState).committed = none ∧
    (cdLoop wHardStop ([] ++ "/a" :: ["/b"]) initLoopState).bestErrno = EACCES ∧
    (cdLoop wHardStop ([] ++ "/a" :: ["/b"]) initLoopState).attempted =
      initLoopState.attempted ++ ([] ++ ["/a"]).map (fun x => wHardStop.normalize x) :=
  cd_loop_stop_policy.1 wHardStop [] "/a" ["/b"] initLoopState EACCES
    (by decide) (by decide) (by decide) (by decide) rfl

/-- C2 counterexample: in wOverwrite the first candidate records the
not-a-directory code into best_errno; the second candidate fails with
permission denied — a code from the bucket the claim says is recorded only
when no code has been recorded yet — and it overwrites the recorded code,
as the final permission-denied diagnostic shows. -/
theorem best_errno_overwrite_counterexample :
    (cdLoop wOverwrite ["/nd"] initLoopState).bestErrno = ENOTDIR ∧
    ENOTDIR ≠ 0 ∧
    (cdLoop wOverwrite ["/nd", "/pd"] initLoopState).bestErrno = EACCES ∧
    EACCES ≠ ENOTDIR ∧
    (cd wOverwrite).errs = [CdMessage.permissionDenied "cd" "x"] := by
  decide

/-- C2 (amended): the not-found path records into best_errno only when no
code has been recorded yet — across any run of not-found failures a
non-zero best_errno is never changed (first conjunct) — while a failure
code other than not-found and not-a-directory overwrites best_errno
unconditionally and ends the loop at that candidate (second conjunct). -/
theorem best_errno_recording_policy :
    (∀ (w : CdWorld) (dirs : List String) (st : LoopState),
      (∀ d ∈ dirs, (w.osAttempt (w.normalize d)).openChdirResult = some ENOENT) →
      st.bestErrno ≠ 0 →
      (cdLoop w dirs st).bestErrno = st.bestErrno) ∧
    (∀ (w : CdWorld) (d : String) (rest : List String) (st : LoopState) (err : Int),
      (w.osAttempt (w.normalize d)).openChdirResult = some err →
      err ≠ ENOENT → err ≠ ENOTDIR →
      (cdLoop w (d :: rest) st).bestErrno = err ∧
      (cdLoop w (d :: rest) st).attempted = st.attempted ++ [w.normalize d]) := by
  constructor
  · exact fun w dirs st h hz => cdLoop_enoent_keeps_best w dirs st h hz
  · intro w d rest st err hoc h1 h2
    rw [cdLoop_cons_hard w d rest st err hoc h1 h2]
    exact ⟨rfl, rfl⟩

theorem best_errno_recording_policy_witness :
    (cdLoop wPriority ["/t1"]
      { initLoopState with bestErrno := ENOTDIR }).bestErrno = ENOTDIR ∧
    (cdLoop wOverwrite ("/pd" :: [])
      { initLoopState with bestErrno := ENOTDIR }).bestErrno = EACCES :=
  ⟨best_errno_recording_policy.1 wPriority ["/t1"]
      { initLoopState with bestErrno := ENOTDIR } (by decide) (by decide),
   (best_errno_recording_policy.2 wOverwrite "/pd" []
      { initLoopState with bestErrno := ENOTDIR } EACCES
      (by decide) (by decide) (by decide)).1⟩

/-- C3: when the loop exhausts the candidates without a success, the
invocation emits exactly one diagnostic (plus the non-interactive line
context) and it is the one selected by the spec's fixed priority — best
code not-a-directory first, else a recorded broken symlink, else too many
symlink indirections, else not-found or no recorded code reports
does-not-exist, else permission denied, else the generic unknown-error
message with the raw code (first conjunct); in particular, when every
failure is not-found or not-a-directory and some candidate failed with
not-a-directory, the report is is-not-a-directory regardless of encounter
order (second conjunct). -/
theorem cd_failure_arbiter_priority (w : CdWorld) (dirIn : String)
    (hdi : cdDirIn w = some dirIn) (hne : ¬dirIn = "")
    (hv : CdOsValidOn w (w.cdpath dirIn w.pwdSlash))
    (hnil : ¬w.cdpath dirIn w.pwdSlash = [])
    (hcm : (cdLoop w (w.cdpath dirIn w.pwdSlash) initLoopState).committed = none) :
    (cd w).errs =
      arbiterSpecMessage w.cmd dirIn
        (cdLoop w (w.cdpath dirIn w.pwdSlash) initLoopState) :: currentLineSuffix w ∧
    ((∀ p ∈ w.cdpath dirIn w.pwdSlash, SoftFailure w p) →
      (∃ p ∈ w.cdpath dirIn w.pwdSlash,
        (w.osAttempt (w.normalize p)).openChdirResult = some ENOTDIR) →
      (cd w).errs = CdMessage.isNotADirectory w.cmd dirIn :: currentLineSuffix w) := by
  have hsig := cdLoop_failure_signal w (w.cdpath dirIn w.pwdSlash) initLoopState hv hnil hcm
  constructor
  · rw [cd_eq_arbiter w dirIn hdi hne hnil hcm]
    show cdArbiterMessage w.cmd dirIn _ :: _ = _
    rw [arbiter_eq_spec w.cmd dirIn _ hsig]
  · intro hsoft hex
    rw [cd_eq_arbiter w dirIn hdi hne hnil hcm]
    show cdArbiterMessage w.cmd dirIn _ :: _ = _
    have hbe := cdLoop_sets_enotdir w (w.cdpath dirIn w.pwdSlash) initLoopState hsoft hex
    unfold cdArbiterMessage
    rw [if_pos hbe]

theorem cd_failure_arbiter_priority_witness :
    (cd wPriority).errs =
      arbiterSpecMessage wPriority.cmd "x"
        (cdLoop wPriority (wPriority.cdpath "x" wPriority.pwdSlash) initLoopState)
        :: currentLineSuffix wPriority ∧
    (cd wPriority).errs =
      CdMessage.isNotADirectory wPriority.cmd "x" :: currentLineSuffix wPriority :=
  ⟨(cd_failure_arbiter_priority wPriority "x" (by decide) (by decide) (by decide)
      (by decide) (by decide)).1,
   (cd_failure_arbiter_priority wPriority "x" (by decide) (by decide) (by decide)
      (by decide) (by decide)).2 (by decide) (by decide)⟩

/-- C4: when every candidate fails with not-found and at least one of them
is a readable symbolic link, the broken-symlink slot captures the first
such candidate — later readable symlinks never overwrite it — and the
invocation reports the broken-symbolic-link message naming that candidate's
normalized path and its link target, wherever the broken symlink sits in
the list. -/
theorem cd_broken_symlink_first_capture (w : CdWorld) (dirIn : String)
    (pre post : List String) (b t : String)
    (hdi : cdDirIn w = some dirIn) (hne : ¬dirIn = "")
    (hsp : w.cdpath dirIn w.pwdSlash = pre ++ b :: post)
    (hall : ∀ p ∈ w.cdpath dirIn w.pwdSlash,
      (w.osAttempt (w.normalize p)).openChdirResult = some ENOENT ∧
      (w.osAttempt (w.normalize p)).errnoAfterReadlink = ENOENT)
    (hpre : ∀ p ∈ pre, (w.osAttempt (w.normalize p)).readlinkResult = none)
    (hb : (w.osAttempt (w.normalize b)).readlinkResult = some t)
    (hbn : w.normalize b ≠ "") :
    (cdLoop w (w.cdpath dirIn w.pwdSlash) initLoopState).brokenSymlink =
      w.normalize b ∧
    (cdLoop w (w.cdpath dirIn w.pwdSlash) initLoopState).brokenSymlinkTarget = t ∧
    (cd w).status = STATUS_CMD_ERROR ∧
    (cd w).errs =
      CdMessage.brokenSymbolicLink w.cmd (w.normalize b) t :: currentLineSuffix w := by
  have hmem_pre : ∀ p ∈ pre, p ∈ w.cdpath dirIn w.pwdSlash := by
    intro p hp
    rw [hsp]
    exact List.mem_append_left _ hp
  have hmem_b : b ∈ w.cdpath dirIn w.pwdSlash := by
    rw [hsp]
    exact List.mem_append_right _ (List.mem_cons_self b post)
  have hmem_post : ∀ p ∈ post, p ∈ w.cdpath dirIn w.pwdSlash := by
    intro p hp
    rw [hsp]
    exact List.mem_append_right _ (List.mem_cons_of_mem _ hp)
  obtain ⟨st2, heq, hbk, _, hcm2, hbe2⟩ :=
    cdLoop_enoent_nolink_walk w pre (b :: post) initLoopState
      (fun p hp => ⟨(hall p (hmem_pre p hp)).1, hpre p hp, (hall p (hmem_pre p hp)).2⟩)
  have hcap := cdLoop_cons_enoent_capture w b post st2 t (hall b hmem_b).1
    (by rw [hbk]; rfl) hb
  obtain ⟨h1, h2, h3, h4⟩ := cdLoop_broken_stable w post
    { st2 with attempted := st2.attempted ++ [w.normalize b]
               brokenSymlink := w.normalize b
               brokenSymlinkTarget := t }
    hbn (fun p hp => hall p (hmem_post p hp))
  have hfin : cdLoop w (w.cdpath dirIn w.pwdSlash) initLoopState =
      cdLoop w post
        { st2 with attempted := st2.attempted ++ [w.normalize b]
                   brokenSymlink := w.normalize b
                   brokenSymlinkTarget := t } := by
    rw [hsp, heq, hcap]
  have hbroken : (cdLoop w (w.cdpath dirIn w.pwdSlash) initLoopState).brokenSymlink =
      w.normalize b := by
    rw [hfin]
    exact h1
  have htarget : (cdLoop w (w.cdpath dirIn w.pwdSlash) initLoopState).brokenSymlinkTarget =
      t := by
    rw [hfin]
    exact h2
  have hcmf : (cdLoop w (w.cdpath dirIn w.pwdSlash) initLoopState).committed = none := by
    rw [hfin]
    exact h3.trans hcm2
  have hbene : (cdLoop w (w.cdpath dirIn w.pwdSlash) initLoopState).bestErrno ≠ ENOTDIR := by
    rw [hfin]
    rcases h4 with h | h
    · rcases hbe2 with h0 | h0
      · rw [h]
        show st2.bestErrno ≠ ENOTDIR
        rw [h0]
        decide
      · rw [h]
        show st2.bestErrno ≠ ENOTDIR
        rw [h0]
        decide
    · rw [h]
      decide
  have hnil : ¬w.cdpath dirIn w.pwdSlash = [] := by
    rw [hsp]
    simp
  refine ⟨hbroken, htarget, ?s, ?m⟩
  · rw [cd_eq_arbiter w dirIn hdi hne hnil hcmf]
  · rw [cd_eq_arbiter w dirIn hdi hne hnil hcmf]
    show cdArbiterMessage w.cmd dirIn _ :: _ = _
    unfold cdArbiterMessage
    rw [if_neg hbene, if_pos (show (cdLoop w (w.cdpath dirIn w.pwdSlash)
        initLoopState).brokenSymlink ≠ "" from by rw [hbroken]; exact hbn),
      hbroken, htarget]

theorem cd_broken_symlink_first_capture_witness :
    (cdLoop wBroken (wBroken.cdpath "link" wBroken.pwdSlash) initLoopState).brokenSymlink =
      wBroken.normalize "/link" ∧
    (cdLoop wBroken (wBroken.cdpath "link" wBroken.pwdSlash)
      initLoopState).brokenSymlinkTarget = "/missing" ∧
    (cd wBroken).status = STATUS_CMD_ERROR ∧
    (cd wBroken).errs =
      CdMessage.brokenSymbolicLink wBroken.cmd (wBroken.normalize "/link") "/missing"
        :: currentLineSuffix wBroken :=
  cd_broken_symlink_first_capture wBroken "link" ["/m"] ["/m2"] "/link" "/missing"
    (by decide) (by decide) (by decide) (by decide) (by decide) (by decide) (by decide)

/-- C5: when the candidates before d all fail with the codes the loop
skips over and d opens and changes directory successfully, the invocation
returns status 0, commits exactly the normalized form of d (the first
succeeding candidate), attempts no candidate after d, changes the process
directory through the handle, stashes the handle as the session cwd fd,
and sets PWD with the export and global flags to exactly that normalized
path. -/
theorem cd_commit_first_success (w : CdWorld) (dirIn : String) (pre : List String)
    (d : String) (post : List String)
    (hdi : cdDirIn w = some dirIn) (hne : ¬dirIn = "")
    (hsp : w.cdpath dirIn w.pwdSlash = pre ++ d :: post)
    (hpre : ∀ p ∈ pre, SoftFailure w p)
    (hd : (w.osAttempt (w.normalize d)).openChdirResult = none) :
    (cd w).status = STATUS_CMD_OK ∧
    (cd w).committed = some (w.normalize d) ∧
    (cd w).attempted = (pre ++ [d]).map (fun x => w.normalize x) ∧
    (cd w).effects =
      [CdEffect.fchdirTo (w.normalize d), CdEffect.setCwdFd (w.normalize d),
       CdEffect.setVarAndFire "PWD" true true [w.normalize d]] ∧
    (cd w).errs = [] := by
  obtain ⟨st2, heq, ha, hf, _⟩ := cdLoop_append_soft w pre (d :: post) initLoopState hpre
  have hfin : cdLoop w (w.cdpath dirIn w.pwdSlash) initLoopState =
      { st2 with
          attempted := st2.attempted ++ [w.normalize d]
          committed := some (w.normalize d)
          effects := st2.effects ++
            [CdEffect.fchdirTo (w.normalize d), CdEffect.setCwdFd (w.normalize d),
             CdEffect.setVarAndFire "PWD" true true [w.normalize d]] } := by
    rw [hsp, heq, cdLoop_cons_success w d post st2 hd]
  have hcm : (cdLoop w (w.cdpath dirIn w.pwdSlash) initLoopState).committed =
      some (w.normalize d) := by
    simp [hfin]
  have hnil : ¬w.cdpath dirIn w.pwdSlash = [] := by
    rw [hsp]
    simp
  rw [cd_eq_commit w dirIn (w.normalize d) hdi hne hnil hcm]
  refine ⟨rfl, hcm, ?a, ?e, rfl⟩
  · show (cdLoop w (w.cdpath dirIn w.pwdSlash) initLoopState).attempted = _
    rw [hfin]
    show st2.attempted ++ [w.normalize d] = _
    rw [ha]
    simp [initLoopState]
  · show (cdLoop w (w.cdpath dirIn w.pwdSlash) initLoopState).effects = _
    rw [hfin]
    show st2.effects ++ _ = _
    rw [hf]
    simp [initLoopState]

theorem cd_commit_first_success_witness :
    (cd wCommit).status = STATUS_CMD_OK ∧
    (cd wCommit).committed = some (wCommit.normalize "/ok") ∧
    (cd wCommit).attempted =
      (["/f1", "/f2"] ++ ["/ok"]).map (fun x => wCommit.normalize x) ∧
    (cd wCommit).effects =
      [CdEffect.fchdirTo (wCommit.normalize "/ok"),
       CdEffect.setCwdFd (wCommit.normalize "/ok"),
       CdEffect.setVarAndFire "PWD" true true [wCommit.normalize "/ok"]] ∧
    (cd wCommit).errs = [] :=
  cd_commit_first_success wCommit "ok" ["/f1", "/f2"] "/ok" []
    (by decide) (by decide) (by decide) (by decide) (by decide)

/-- C6: an invocation that fails performs no side effect — the process
working directory is not changed, the session cwd fd is not replaced, and
no variable is set — and commits nothing; the effect list is non-empty
only on a successful commit. -/
theorem cd_failure_frame (w : CdWorld) (h : (cd w).status = STATUS_CMD_ERROR) :
    (cd w).effects = [] ∧ (cd w).committed = none := by
  cases hdi : cdDirIn w with
  | none =>
    rw [cd_eq_noHome w hdi]
    exact ⟨rfl, rfl⟩
  | some dirIn =>
    by_cases hemp : dirIn = ""
    · rw [cd_eq_empty w dirIn hdi hemp]
      exact ⟨rfl, rfl⟩
    · by_cases hnil : w.cdpath dirIn w.pwdSlash = []
      · rw [cd_eq_nil w dirIn hdi hemp hnil]
        exact ⟨rfl, rfl⟩
      · cases hcm : (cdLoop w (w.cdpath dirIn w.pwdSlash) initLoopState).committed with
        | some x =>
          rw [cd_eq_commit w dirIn x hdi hemp hnil hcm] at h
          exact absurd h (show ¬STATUS_CMD_OK = STATUS_CMD_ERROR by decide)
        | none =>
          rw [cd_eq_arbiter w dirIn hdi hemp hnil hcm]
          refine ⟨?e, rfl⟩
          show (cdLoop w (w.cdpath dirIn w.pwdSlash) initLoopState).effects = []
          exact cdLoop_no_commit_effects w _ initLoopState hcm

theorem cd_failure_frame_witness :
    (cd wHardStop).effects = [] ∧ (cd wHardStop).committed = none :=
  cd_failure_frame wHardStop (by decide)

/-- C7: with no path operand and a missing-or-empty home variable the
invocation fails with the no-home message, and with an explicit
empty-string operand it fails with the empty-path message, which is a
different message from the does-not-exist one; in both cases nothing is
attempted and no effect is performed, so no filesystem access happens and
the working-directory variable is unchanged. -/
theorem cd_degenerate_input (w1 w2 : CdWorld) :
    (w1.arg = none → w1.homeVar = none →
      cd w1 =
        { status := STATUS_CMD_ERROR
          errs := [CdMessage.couldNotFindHome w1.cmd]
          committed := none
          attempted := []
          effects := [] }) ∧
    (w2.arg = some "" →
      cd w2 =
        { status := STATUS_CMD_ERROR
          errs := CdMessage.emptyDirectory w2.cmd "" :: currentLineSuffix w2
          committed := none
          attempted := []
          effects := [] } ∧
      ∀ s : String,
        CdMessage.emptyDirectory w2.cmd "" ≠ CdMessage.doesNotExist w2.cmd s) := by
  constructor
  · intro ha hh
    exact cd_eq_noHome w1 (by unfold cdDirIn; rw [ha, hh])
  · intro ha
    constructor
    · exact cd_eq_empty w2 "" (by unfold cdDirIn; rw [ha]) rfl
    · intro s
      simp

theorem cd_degenerate_input_witness :
    cd wNoHome =
      { status := STATUS_CMD_ERROR
        errs := [CdMessage.couldNotFindHome wNoHome.cmd]
        committed := none
        attempted := []
        effects := [] } ∧
    (cd wEmptyArg =
      { status := STATUS_CMD_ERROR
        errs := CdMessage.emptyDirectory wEmptyArg.cmd "" :: currentLineSuffix wEmptyArg
        committed := none
        attempted := []
        effects := [] } ∧
      ∀ s : String,
        CdMessage.emptyDirectory wEmptyArg.cmd "" ≠
          CdMessage.doesNotExist wEmptyArg.cmd s) :=
  ⟨(cd_degenerate_input wNoHome wEmptyArg).1 rfl rfl,
   (cd_degenerate_input wNoHome wEmptyArg).2 rfl⟩

theorem cd_update_pwdSlash (w : CdWorld) (p : String)
    (hstable : ∀ dirIn, cdDirIn w = some dirIn →
      w.cdpath dirIn p = w.cdpath dirIn w.pwdSlash) :
    cd { w with pwdSlash := p } = cd w := by
  cases hdi : cdDirIn w with
  | none =>
    rw [cd_eq_noHome { w with pwdSlash := p } hdi, cd_eq_noHome w hdi]
  | some dirIn =>
    by_cases hemp : dirIn = ""
    · rw [cd_eq_empty { w with pwdSlash := p } dirIn hdi hemp,
        cd_eq_empty w dirIn hdi hemp]
      rfl
    · have hcd : { w with pwdSlash := p }.cdpath dirIn
          { w with pwdSlash := p }.pwdSlash = w.cdpath dirIn w.pwdSlash :=
        hstable dirIn hdi
      by_cases hnil : w.cdpath dirIn w.pwdSlash = []
      · rw [cd_eq_nil { w with pwdSlash := p } dirIn hdi hemp (by rw [hcd]; exact hnil),
          cd_eq_nil w dirIn hdi hemp hnil]
        rfl
      · have hloop : cdLoop { w with pwdSlash := p }
            ({ w with pwdSlash := p }.cdpath dirIn { w with pwdSlash := p }.pwdSlash)
            initLoopState =
            cdLoop w (w.cdpath dirIn w.pwdSlash) initLoopState := by
          rw [hcd, cdLoop_update_pwdSlash]
        have hnil2 : ¬{ w with pwdSlash := p }.cdpath dirIn
            { w with pwdSlash := p }.pwdSlash = [] := by
          rw [hcd]
          exact hnil
        cases hcm : (cdLoop w (w.cdpath dirIn w.pwdSlash) initLoopState).committed with
        | some x =>
          rw [cd_eq_commit { w with pwdSlash := p } dirIn x hdi hemp hnil2
              (by rw [hloop]; exact hcm),
            cd_eq_commit w dirIn x hdi hemp hnil hcm, hloop]
        | none =>
          rw [cd_eq_arbiter { w with pwdSlash := p } dirIn hdi hemp hnil2
              (by rw [hloop]; exact hcm),
            cd_eq_arbiter w dirIn hdi hemp hnil hcm, hloop]
          rfl

/-- C8 counterexample: in wRelative the resolver resolves the relative
input against the working directory, as the real resolver does. The first
invocation of cd foo succeeds and commits /base/foo; invoking the very same
command line again in the resulting session fails, because the candidate
list is now resolved against /base/foo/ — so a second identical invocation
neither succeeds nor commits the same path. -/
theorem cd_idempotence_counterexample :
    (cd wRelative).status = STATUS_CMD_OK ∧
    (cd wRelative).committed = some "/base/foo" ∧
    (cd (afterCd wRelative)).status = STATUS_CMD_ERROR ∧
    (cd (afterCd wRelative)).committed = none := by
  decide

/-- C8 (amended): when the candidate list the resolver produces for the
input is unchanged by the working-directory update of the first call — as
for absolute path inputs, whose resolution ignores the working directory —
repeating a successful invocation yields the identical result: it succeeds
again and commits the same normalized path, setting the working-directory
variable to the value it already has. -/
theorem cd_repeat_invocation_stable (w : CdWorld) (d : String)
    (hc : (cd w).committed = some d)
    (hstable : ∀ dirIn, cdDirIn w = some dirIn →
      w.cdpath dirIn (d ++ "/") = w.cdpath dirIn w.pwdSlash) :
    cd (afterCd w) = cd w ∧
    (cd (afterCd w)).committed = some d ∧
    (cd (afterCd w)).status = STATUS_CMD_OK := by
  have h1 : afterCd w = { w with pwdSlash := d ++ "/" } := by
    unfold afterCd
    rw [hc]
  have h2 : cd (afterCd w) = cd w := by
    rw [h1]
    exact cd_update_pwdSlash w (d ++ "/") hstable
  refine ⟨h2, ?x, ?y⟩
  · rw [h2]
    exact hc
  · rw [h2]
    exact (cd_committed_ok w d hc).1

theorem cd_repeat_invocation_stable_witness :
    cd (afterCd wAbsolute) = cd wAbsolute ∧
    (cd (afterCd wAbsolute)).committed = some "/abs/dir" ∧
    (cd (afterCd wAbsolute)).status = STATUS_CMD_OK :=
  cd_repeat_invocation_stable wAbsolute "/abs/dir" (by decide)
    (fun _ _ => rfl)

/-- C9: without -P, pwd prints the stored working-directory variable
verbatim and exits 0 when it is non-empty, and exits 1 when it is empty;
with -P it prints the symlink-free real path of the stored value; the exit
status is 1 exactly when -P resolution fails or the string to print is
empty. -/
theorem pwd_spec_behavior (w : PwdWorld) (b : Bool) :
    (pwdStored w ≠ "" →
      pwd false w = { status := STATUS_CMD_OK, out := [pwdStored w], errs := [] }) ∧
    (pwdStored w = "" →
      pwd false w = { status := STATUS_CMD_ERROR, out := [], errs := [] }) ∧
    (∀ rp, w.wrealpath (pwdStored w) = some rp → rp ≠ "" →
      pwd true w = { status := STATUS_CMD_OK, out := [rp], errs := [] }) ∧
    (w.wrealpath (pwdStored w) = none →
      pwd true w =
        { status := STATUS_CMD_ERROR, out := []
          errs := [PwdMessage.realpathFailed w.cmd w.errnoText] }) ∧
    ((pwd b w).status = STATUS_CMD_ERROR ↔
      (b = true ∧ w.wrealpath (pwdStored w) = none) ∨
      (b = true ∧ w.wrealpath (pwdStored w) = some "") ∨
      (b = false ∧ pwdStored w = "")) := by
  refine ⟨?p1, ?p2, ?p3, ?p4, ?p5⟩
  · intro h
    simp [pwd, h]
  · intro h
    simp [pwd, h]
  · intro rp hr hne
    simp [pwd, hr, hne]
  · intro hr
    simp [pwd, hr]
  · cases b with
    | false =>
      by_cases hp : pwdStored w = ""
      · simp [pwd, hp, STATUS_CMD_OK, STATUS_CMD_ERROR]
      · simp [pwd, hp, STATUS_CMD_OK, STATUS_CMD_ERROR]
    | true =>
      cases hr : w.wrealpath (pwdStored w) with
      | none => simp [pwd, hr, STATUS_CMD_OK, STATUS_CMD_ERROR]
      | some rp =>
        by_cases hrp : rp = ""
        · subst hrp
          simp [pwd, hr, STATUS_CMD_OK, STATUS_CMD_ERROR]
        · simp [pwd, hr, hrp, STATUS_CMD_OK, STATUS_CMD_ERROR]

theorem pwd_spec_behavior_witness :
    pwd false wPwd = { status := STATUS_CMD_OK, out := ["/home/u"], errs := [] } ∧
    pwd true wPwd = { status := STATUS_CMD_OK, out := ["/real/u"], errs := [] } ∧
    ((pwd true wPwd).status = STATUS_CMD_ERROR ↔
      (true = true ∧ wPwd.wrealpath (pwdStored wPwd) = none) ∨
      (true = true ∧ wPwd.wrealpath (pwdStored wPwd) = some "") ∨
      (true = false ∧ pwdStored wPwd = "")) :=
  ⟨(pwd_spec_behavior wPwd false).1 (by decide),
   (pwd_spec_behavior wPwd true).2.2.1 "/real/u" (by decide) (by decide),
   (pwd_spec_behavior wPwd true).2.2.2.2⟩

theorem mem_currentLineSuffix (w : CdWorld) (m : CdMessage)
    (hm : m ∈ currentLineSuffix w) : m = CdMessage.currentLine w.currentLine := by
  unfold currentLineSuffix at hm
  by_cases hI : w.isInteractive = true
  · rw [if_pos hI] at hm
    exact absurd hm (List.not_mem_nil m)
  · rw [if_neg hI] at hm
    simpa using hm

theorem msgPathProp_currentLine (w : CdWorld) (dirIn l : String) :
    MsgPathProp w dirIn (CdMessage.currentLine l) :=
  ⟨fun _ _ _ h => CdMessage.noConfusion h, fun _ _ h => CdMessage.noConfusion h,
   fun _ _ h => CdMessage.noConfusion h, fun _ _ h => CdMessage.noConfusion h,
   fun _ _ h => CdMessage.noConfusion h, fun _ _ h => CdMessage.noConfusion h,
   fun _ _ _ h => CdMessage.noConfusion h⟩

theorem msgPathProp_emptyDirectory (w : CdWorld) (dirIn c : String) :
    MsgPathProp w dirIn (CdMessage.emptyDirectory c dirIn) :=
  ⟨fun _ _ _ h => CdMessage.noConfusion h,
   fun _ _ h => by injection h with h1 h2; exact h2.symm,
   fun _ _ h => CdMessage.noConfusion h, fun _ _ h => CdMessage.noConfusion h,
   fun _ _ h => CdMessage.noConfusion h, fun _ _ h => CdMessage.noConfusion h,
   fun _ _ _ h => CdMessage.noConfusion h⟩

theorem msgPathProp_doesNotExist (w : CdWorld) (dirIn c : String) :
    MsgPathProp w dirIn (CdMessage.doesNotExist c dirIn) :=
  ⟨fun _ _ _ h => CdMessage.noConfusion h, fun _ _ h => CdMessage.noConfusion h,
   fun _ _ h => by injection h with h1 h2; exact h2.symm,
   fun _ _ h => CdMessage.noConfusion h, fun _ _ h => CdMessage.noConfusion h,
   fun _ _ h => CdMessage.noConfusion h, fun _ _ _ h => CdMessage.noConfusion h⟩

theorem msgPathProp_isNotADirectory (w : CdWorld) (dirIn c : String) :
    MsgPathProp w dirIn (CdMessage.isNotADirectory c dirIn) :=
  ⟨fun _ _ _ h => CdMessage.noConfusion h, fun _ _ h => CdMessage.noConfusion h,
   fun _ _ h => CdMessage.noConfusion h,
   fun _ _ h => by injection h with h1 h2; exact h2.symm,
   fun _ _ h => CdMessage.noConfusion h, fun _ _ h => CdMessage.noConfusion h,
   fun _ _ _ h => CdMessage.noConfusion h⟩

theorem msgPathProp_tooMany (w : CdWorld) (dirIn c : String) :
    MsgPathProp w dirIn (CdMessage.tooManyLevelsOfSymbolicLinks c dirIn) :=
  ⟨fun _ _ _ h => CdMessage.noConfusion h, fun _ _ h => CdMessage.noConfusion h,
   fun _ _ h => CdMessage.noConfusion h, fun _ _ h => CdMessage.noConfusion h,
   fun _ _ h => by injection h with h1 h2; exact h2.symm,
   fun _ _ h => CdMessage.noConfusion h, fun _ _ _ h => CdMessage.noConfusion h⟩

theorem msgPathProp_permission (w : CdWorld) (dirIn c : String) :
    MsgPathProp w dirIn (CdMessage.permissionDenied c dirIn) :=
  ⟨fun _ _ _ h => CdMessage.noConfusion h, fun _ _ h => CdMessage.noConfusion h,
   fun _ _ h => CdMessage.noConfusion h, fun _ _ h => CdMessage.noConfusion h,
   fun _ _ h => CdMessage.noConfusion h,
   fun _ _ h => by injection h with h1 h2; exact h2.symm,
   fun _ _ _ h => CdMessage.noConfusion h⟩

theorem msgPathProp_unknown (w : CdWorld) (dirIn c : String) (e : Int) :
    MsgPathProp w dirIn (CdMessage.unknownErrorLocating c dirIn e) :=
  ⟨fun _ _ _ h => CdMessage.noConfusion h, fun _ _ h => CdMessage.noConfusion h,
   fun _ _ h => CdMessage.noConfusion h, fun _ _ h => CdMessage.noConfusion h,
   fun _ _ h => CdMessage.noConfusion h, fun _ _ h => CdMessage.noConfusion h,
   fun _ _ _ h => by injection h with h1 h2 h3; exact h2.symm⟩

theorem msgPathProp_broken (w : CdWorld) (dirIn c ps tg : String)
    (hex : ∃ x ∈ w.cdpath dirIn w.pwdSlash, ps = w.normalize x ∧
      (w.osAttempt (w.normalize x)).readlinkResult = some tg) :
    MsgPathProp w dirIn (CdMessage.brokenSymbolicLink c ps tg) := by
  refine ⟨fun c2 ps2 tg2 h => ?x, fun _ _ h => CdMessage.noConfusion h,
    fun _ _ h => CdMessage.noConfusion h, fun _ _ h => CdMessage.noConfusion h,
    fun _ _ h => CdMessage.noConfusion h, fun _ _ h => CdMessage.noConfusion h,
    fun _ _ _ h => CdMessage.noConfusion h⟩
  injection h with h1 h2 h3
  subst h2
  subst h3
  exact hex

/-- C10: every diagnostic an invocation emits shows the raw input path
dir_in (the operand as supplied or the substituted home value) — except the
broken-symbolic-link diagnostic, which instead names the normalized form of
one of the candidate paths together with the link target wreadlink returned
for it. -/
theorem cd_message_paths (w : CdWorld) (dirIn : String)
    (hdi : cdDirIn w = some dirIn) :
    ∀ m ∈ (cd w).errs, MsgPathProp w dirIn m := by
  intro m hm
  by_cases hemp : dirIn = ""
  · rw [cd_eq_empty w dirIn hdi hemp] at hm
    rcases List.mem_cons.mp hm with rfl | hm2
    · exact msgPathProp_emptyDirectory w dirIn w.cmd
    · rw [mem_currentLineSuffix w m hm2]
      exact msgPathProp_currentLine w dirIn w.currentLine
  · by_cases hnil : w.cdpath dirIn w.pwdSlash = []
    · rw [cd_eq_nil w dirIn hdi hemp hnil] at hm
      rcases List.mem_cons.mp hm with rfl | hm2
      · exact msgPathProp_doesNotExist w dirIn w.cmd
      · rw [mem_currentLineSuffix w m hm2]
        exact msgPathProp_currentLine w dirIn w.currentLine
    · cases hcm : (cdLoop w (w.cdpath dirIn w.pwdSlash) initLoopState).committed with
      | some x =>
        rw [cd_eq_commit w dirIn x hdi hemp hnil hcm] at hm
        exact absurd hm (List.not_mem_nil m)
      | none =>
        rw [cd_eq_arbiter w dirIn hdi hemp hnil hcm] at hm
        rcases List.mem_cons.mp hm with rfl | hm2
        · unfold cdArbiterMessage
          by_cases a1 : (cdLoop w (w.cdpath dirIn w.pwdSlash) initLoopState).bestErrno =
              ENOTDIR
          · rw [if_pos a1]
            exact msgPathProp_isNotADirectory w dirIn w.cmd
          · rw [if_neg a1]
            by_cases a2 : (cdLoop w (w.cdpath dirIn w.pwdSlash)
                initLoopState).brokenSymlink ≠ ""
            · rw [if_pos a2]
              refine msgPathProp_broken w dirIn w.cmd _ _ ?hex
              rcases cdLoop_broken_origin w (w.cdpath dirIn w.pwdSlash) initLoopState
                with ⟨hb, _⟩ | ⟨x, hx, hb, ht⟩
              · exact absurd hb a2
              · exact ⟨x, hx, hb, ht⟩
            · rw [if_neg a2]
              by_cases a3 : (cdLoop w (w.cdpath dirIn w.pwdSlash)
                  initLoopState).bestErrno = ELOOP
              · rw [if_pos a3]
                exact msgPathProp_tooMany w dirIn w.cmd
              · rw [if_neg a3]
                by_cases a4 : (cdLoop w (w.cdpath dirIn w.pwdSlash)
                    initLoopState).bestErrno = ENOENT
                · rw [if_pos a4]
                  exact msgPathProp_doesNotExist w dirIn w.cmd
                · rw [if_neg a4]
                  by_cases a5 : (cdLoop w (w.cdpath dirIn w.pwdSlash)
                      initLoopState).bestErrno = EACCES ∨
                      (cdLoop w (w.cdpath dirIn w.pwdSlash) initLoopState).bestErrno =
                        EPERM
                  · rw [if_pos a5]
                    exact msgPathProp_permission w dirIn w.cmd
                  · rw [if_neg a5]
                    exact msgPathProp_unknown w dirIn w.cmd _
        · rw [mem_currentLineSuffix w m hm2]
          exact msgPathProp_currentLine w dirIn w.currentLine

theorem cd_message_paths_witness :
    ∃ x ∈ wBroken.cdpath "link" wBroken.pwdSlash,
      "/link" = wBroken.normalize x ∧
      (wBroken.osAttempt (wBroken.normalize x)).readlinkResult = some "/missing" :=
  (cd_message_paths wBroken "link" (by decide)
    (CdMessage.brokenSymbolicLink "cd" "/link" "/missing") (by decide)).1
    "cd" "/link" "/missing" rfl
